import Mathlib

/-!
# Verification of the NL→SQL chat application (ms-ai-mvp)

A shallow embedding, in Lean 4, of the parts of the repository that the
verified properties are about:

* `src/utils.py` — `is_korean`, `upload_json_to_blob`;
* `src/db.py` — `run_readonly_select_simple`, `build_schema_cache` and the
  four catalog reads it performs;
* `src/llm.py` — `get_schema_snippet`, `search_similar_queries_simple`,
  `nl2sql`;
* `src/streamlit_app.py` — the per-turn pipeline: translation step,
  schema retrieval, SQL generation, SQL validation (gatekeeper),
  execution, and the conversation-turn append.

External collaborators (PostgreSQL, Azure Search, the LLM chain, the SQL
parser) are modelled as explicit oracles passed in as function or
`Except`-valued arguments; a Python function that can raise is embedded as
a function into `Except String _`, and a Python function that returns
`None` on some path is embedded as a function into `Option _`.
Python string operations used by the code (`str.strip`, `str.upper`,
slicing with a possibly negative bound) are embedded character-list-wise
so that every definition evaluates by kernel reduction.
-/

namespace MsAiMvp

/-! ## Python string primitives -/

/-- Python `str.strip()` on the character list: drop whitespace from both
ends. -/
def stripChars (l : List Char) : List Char :=
  ((l.dropWhile Char.isWhitespace).reverse.dropWhile Char.isWhitespace).reverse

/-- Python `str.strip()`. -/
def pyStrip (s : String) : String :=
  ⟨stripChars s.data⟩

/-- Python `str.upper()` (ASCII case mapping suffices for the strings the
program compares). -/
def pyUpper (s : String) : String :=
  ⟨s.data.map Char.toUpper⟩

/-- Python list slicing `l[:stop]` where `stop` may be negative: a negative
bound counts from the end, and the result is clamped to the list. -/
def pySliceTo {α : Type} (l : List α) (stop : Int) : List α :=
  let s : Int := if stop < 0 then (l.length : Int) + stop else stop
  l.take s.toNat

/-! ## `src/utils.py` -/

/-- One character of the regex class `[ㄱ-ㅎ가-힣]` used by
`utils.is_korean`: Hangul compatibility consonant jamo (U+3131–U+314E) or
precomposed Hangul syllable (U+AC00–U+D7A3). -/
def isKoreanRegexChar (c : Char) : Bool :=
  (0x3131 ≤ c.toNat && c.toNat ≤ 0x314E) || (0xAC00 ≤ c.toNat && c.toNat ≤ 0xD7A3)

/-- Embeds `utils.is_korean`: `re.search` of the class `[ㄱ-ㅎ가-힣]`
against the text succeeds iff some character of the text is in the class. -/
def is_korean (text : String) : Bool :=
  text.data.any isKoreanRegexChar

/-- Stated from the spec's words, for comparison with `is_korean`: the
question "contains Hangul characters", reading Hangul as the Unicode Hangul
blocks — Hangul Jamo (U+1100–U+11FF), Hangul Compatibility Jamo
(U+3130–U+318F) and Hangul Syllables (U+AC00–U+D7A3). -/
def isHangulChar (c : Char) : Bool :=
  (0x1100 ≤ c.toNat && c.toNat ≤ 0x11FF) ||
  (0x3130 ≤ c.toNat && c.toNat ≤ 0x318F) ||
  (0xAC00 ≤ c.toNat && c.toNat ≤ 0xD7A3)

/-- The question contains a Hangul character (spec-side notion). -/
def containsHangul (s : String) : Bool :=
  s.data.any isHangulChar

/-- An upload request as it reaches the blob service: which container,
which blob name, which serialized body. -/
structure BlobUpload where
  container : String
  blob : String
  body : String
deriving DecidableEq

/-- Python falsiness of an optional environment string (`not s` is true for
both `None` and `""`). -/
def pyFalsyStr (o : Option String) : Bool :=
  match o with
  | none => true
  | some s => s = ""

/-- Embeds `utils.upload_json_to_blob`. The connection string is the
module-level environment value; `data` stands for the JSON-serialized
document. The body re-binds `container_name` to `"data"` before building
the blob client, exactly as the source does, and `purge_before_upload` is
accepted but never read by the source body. -/
def upload_json_to_blob (connectionString : Option String) (data : String)
    (title : String) (container_name : String) (purge_before_upload : Bool) :
    Except String BlobUpload :=
  if pyFalsyStr connectionString then
    .error "Azure Storage 연결 문자열이 설정되지 않았습니다."
  else
    let container_name := "data"
    let blob_name := title ++ ".json"
    .ok { container := container_name, blob := blob_name, body := data }

/-! ## `src/db.py`: the read-only executor -/

/-- Embeds `db.run_readonly_select_simple`. The database is an oracle from
the executed SQL text to `(column names, fetched rows)`; the session setup
(`statement_timeout`, `transaction_read_only`) does not affect the shape of
the result and is abstracted into the oracle. The source fetches all rows
and then truncates client-side with `rows[:max_rows]`. -/
def run_readonly_select_simple {α : Type} (db : String → List String × List α)
    (sql : String) (max_rows : Int) : List String × List α :=
  let result := db sql
  let rows := pySliceTo result.2 max_rows
  (result.1, rows)

/-! ## `src/streamlit_app.py`: translation step and SQL gatekeeper -/

/-- Embeds line 304 of `streamlit_app.py`:
`question = translator(prompt) if is_korean(prompt) else prompt`.
Returns the question handed to retrieval/generation together with whether
the translation adapter was invoked. -/
def translateStep (tr : String → String) (prompt : String) : String × Bool :=
  if is_korean prompt then (tr prompt, true) else (prompt, false)

/-- Outcome of `sqlglot.parse_one(sql, read="postgres")`, as an oracle
value: either the `key` of the parsed top-level expression, or the message
of the raised parse error. -/
inductive SqlParse where
  | parsed (key : String)
  | parseError (msg : String)

/-- Outcome of the validation block. -/
inductive Validation where
  | accepted (sql : String)
  | rejected (msg : String)

/-- Embeds the validation block, `streamlit_app.py` lines 333–352, applied
to the already-stripped `sql`: reject when the string is empty, reject with
the parser's message when parsing raises, reject unless the parsed
expression's `key.upper()` is `"SELECT"`; every raised error is caught and
turned into a rejected turn. -/
def validate_sql (parse : String → SqlParse) (sql : String) : Validation :=
  if sql = "" then
    .rejected "SQL이 생성되지 않았습니다."
  else
    match parse sql with
    | .parseError m => .rejected m
    | .parsed k =>
      if pyUpper k = "SELECT" then .accepted sql
      else .rejected "SELECT 쿼리만 허용됩니다."

/-- The gatekeeper as the generated SQL reaches it: line 324 strips the
model's `sql` field before the validation block runs. -/
def gatekeeper (parse : String → SqlParse) (rawSql : String) : Validation :=
  validate_sql parse (pyStrip rawSql)

/-! ## Claim theorems: gatekeeper, executor, translation, blob upload -/

/-- C1: the gatekeeper is total — every input yields an accepted or a
rejected value, never an escaping exception — and it accepts exactly the
inputs that are nonempty after stripping and parse to a top-level
expression whose kind uppercases to `SELECT`; every empty, unparseable or
non-SELECT input is rejected. -/
theorem C1_gatekeeper_accepts_only_select (parse : String → SqlParse)
    (rawSql : String) :
    ((∃ s, gatekeeper parse rawSql = .accepted s) ∨
      (∃ m, gatekeeper parse rawSql = .rejected m)) ∧
    ((∃ s, gatekeeper parse rawSql = .accepted s) ↔
      (pyStrip rawSql ≠ "" ∧
        ∃ k, parse (pyStrip rawSql) = .parsed k ∧ pyUpper k = "SELECT")) := by
  unfold gatekeeper validate_sql
  by_cases h : pyStrip rawSql = ""
  · simp [h]
  · simp only [h, if_false]
    cases hp : parse (pyStrip rawSql) with
    | parseError m =>
      refine ⟨Or.inr ⟨m, rfl⟩, ?_⟩
      simp [hp]
    | parsed k =>
      by_cases hk : pyUpper k = "SELECT"
      · refine ⟨Or.inl ⟨pyStrip rawSql, by simp [hk]⟩, ?_⟩
        simp [hp, hk, h]
      · refine ⟨Or.inr ⟨"SELECT 쿼리만 허용됩니다.", by simp [hp, hk]⟩, ?_⟩
        simp [hp, hk]

/-- C2 counterexample: the claim "for every SQL string and every
`max_rows`, `len(rows) <= max_rows`" fails at `max_rows = -1`: Python's
slice `rows[:-1]` of a two-row result keeps one row, and `1 ≤ -1` is
false (no length is `≤ -1`). -/
theorem C2_executor_negative_max_rows_counterexample :
    ¬ (((run_readonly_select_simple (fun _ => (["c"], [0, 1])) "SELECT 1"
          (-1)).2.length : Int) ≤ -1) := by
  decide

/-- C2 (amended): for every database oracle, SQL string and `max_rows ≥ 0`
— in particular every value the sidebar can supply — the executor returns
at most `max_rows` rows, with truncation applied client-side after
fetching. -/
theorem C2_executor_truncates_to_max_rows {α : Type}
    (db : String → List String × List α) (sql : String) (max_rows : Int)
    (h : 0 ≤ max_rows) :
    (((run_readonly_select_simple db sql max_rows).2.length : Int)) ≤ max_rows := by
  unfold run_readonly_select_simple pySliceTo
  simp only [not_lt.mpr h, if_neg (not_lt.mpr h)]
  have hlen : ((db sql).2.take max_rows.toNat).length ≤ max_rows.toNat := by
    rw [List.length_take]
    exact Nat.min_le_left _ _
  calc ((((db sql).2.take max_rows.toNat).length : Int))
      ≤ (max_rows.toNat : Int) := by exact_mod_cast hlen
    _ = max_rows := Int.toNat_of_nonneg h

/-- C2 witness: at `max_rows = 2` over a three-row result the executor
returns at most two rows. -/
theorem C2_executor_truncates_witness :
    (0 : Int) ≤ 2 ∧
    (((run_readonly_select_simple (fun _ => (["c"], [0, 1, 2])) "SELECT 1"
        2).2.length : Int)) ≤ 2 :=
  ⟨by decide,
    C2_executor_truncates_to_max_rows (fun _ => (["c"], [0, 1, 2])) "SELECT 1" 2
      (by decide)⟩

/-- C8 counterexample: the claim "translation is invoked iff the question
contains Hangul characters" fails at the question `"ㅏ"` (the Hangul vowel
letter U+314F, a Hangul Compatibility Jamo character): it contains Hangul,
yet `is_korean` matches only `[ㄱ-ㅎ가-힣]` (U+3131–U+314E and
U+AC00–U+D7A3), so the translation adapter is not invoked. -/
theorem C8_translation_hangul_vowel_counterexample :
    containsHangul "ㅏ" = true ∧ (translateStep id "ㅏ").2 = false := by
  constructor
  · decide
  · decide

/-- C8 (amended): the translation adapter is invoked, before retrieval, iff
the question contains a character of the class `[ㄱ-ㅎ가-힣]` (a Hangul
compatibility consonant jamo or a precomposed Hangul syllable); in
particular a pure-ASCII question is always passed through untranslated. -/
theorem C8_translation_iff_korean_class (tr : String → String)
    (prompt : String) :
    ((translateStep tr prompt).2 = true ↔
      ∃ c ∈ prompt.data, isKoreanRegexChar c = true) ∧
    ((∀ c ∈ prompt.data, c.toNat ≤ 127) → (translateStep tr prompt).2 = false) := by
  have hinv : (translateStep tr prompt).2 = is_korean prompt := by
    unfold translateStep
    by_cases h : is_korean prompt <;> simp [h]
  constructor
  · rw [hinv, is_korean, List.any_eq_true]
  · intro hascii
    rw [hinv, is_korean]
    rw [List.any_eq_false]
    intro c hc
    have h127 := hascii c hc
    unfold isKoreanRegexChar
    have h1 : ¬ (0x3131 ≤ c.toNat) := by omega
    have h2 : ¬ (0xAC00 ≤ c.toNat) := by omega
    simp [h1, h2]

/-- C10: the blob-upload helper either fails on a missing/empty connection
string or uploads to the container `"data"` with blob name `title ++
".json"` — independently of the `container_name` argument, which the body
overwrites before use, so no caller can target a different container. -/
theorem C10_upload_always_targets_data_container (conn : Option String)
    (data title cname : String) (purge : Bool) :
    (upload_json_to_blob conn data title cname purge =
       .error "Azure Storage 연결 문자열이 설정되지 않았습니다." ∨
     upload_json_to_blob conn data title cname purge =
       .ok { container := "data", blob := title ++ ".json", body := data }) ∧
    (∀ cname2, upload_json_to_blob conn data title cname purge =
       upload_json_to_blob conn data title cname2 purge) := by
  unfold upload_json_to_blob
  by_cases h : pyFalsyStr conn = true
  · simp [h]
  · simp [h]

/-! ## `src/llm.py`: retrieval and SQL generation -/

/-- Embeds `llm.get_schema_snippet`. The search service is an oracle that
either yields the ranked chunks (the over-fetch of 10 and the ranking live
inside the oracle) or raises. On success the source returns `out[:top_k]`;
on any search error its `except` block only prints, so the function falls
off the end and returns Python `None` — embedded as `Option.none`. -/
def get_schema_snippet (search : Except String (List String)) (top_k : Nat) :
    Option (List String) :=
  match search with
  | .ok results => some (results.take top_k)
  | .error _ => none

/-- Embeds `streamlit_app.py` lines 305–317: the turn reaches SQL
generation only under `if SCHEMA_SNIPPET is not None`. -/
def reachesSqlGeneration (search : Except String (List String)) (top_k : Nat) :
    Bool :=
  (get_schema_snippet search top_k).isSome

/-- A document of the `rag-query` example index, as the search returns it. -/
structure ExampleDoc where
  chunk : String
  sql_query : String
deriving DecidableEq

/-- A question/SQL pair as `search_similar_queries_simple` returns it. -/
structure QAExample where
  question : String
  sql_query : String
deriving DecidableEq

/-- Embeds `llm.search_similar_queries_simple`. The search service is an
oracle (the requested `top_k` is passed to the service and is part of the
oracle); on success each document becomes a `{question, sql_query}` pair,
and on any search error the `except` block returns the empty list. -/
def search_similar_queries_simple (search : Except String (List ExampleDoc)) :
    List QAExample :=
  match search with
  | .ok results =>
    results.map (fun r => { question := r.chunk, sql_query := r.sql_query })
  | .error _ => []

/-- Embeds the `examples` string built inside `llm.nl2sql`: empty when no
similar queries were found (the list is falsy), otherwise a header followed
by one numbered block per example. -/
def examplesBlock (qs : List QAExample) : String :=
  if qs.isEmpty then ""
  else
    "\n\n참고할 수 있는 유사한 예제들:\n" ++
      String.join (qs.enum.map (fun p =>
        "\n예제 " ++ toString (p.1 + 1) ++ ":\n질문: " ++ p.2.question ++
          "\nSQL: " ++ p.2.sql_query ++ "\n"))

/-- The prompt as it reaches the model chain: the pieces of `llm.nl2sql`'s
`ChatPromptTemplate` and `chain.invoke` input that vary per call. -/
structure PromptInput where
  examples : String
  max_rows : Int
  question : String
  schema : List String
deriving DecidableEq

/-- A parsed JSON object with string fields, as `JsonOutputParser` hands it
back. -/
abbrev JsonObj := List (String × String)

/-- Python `dict.get(key, default)` on a parsed JSON object. -/
def jsonGet (o : JsonObj) (key d : String) : String :=
  match o.find? (fun p => p.1 = key) with
  | some p => p.2
  | none => d

/-- Embeds `llm.nl2sql`. `exampleCall` is the example-retrieval sub-call
(`search_similar_queries_simple`), which may raise: the `try`/`except`
around it turns any error into an empty `examples` string and generation
continues. `chain` is `prompt | client | parser`: the model call composed
with `JsonOutputParser`, which parses the response as JSON and raises on
unparseable output, but performs no field validation against `SQLResponse`
(the `pydantic_object` is only used for format instructions) — so the
parsed object is returned exactly as the chain produced it. -/
def nl2sql (exampleCall : Except String (List QAExample))
    (chain : PromptInput → Except String JsonObj)
    (question : String) (schema_snippet : List String) (max_rows : Int) :
    Except String JsonObj :=
  let examples :=
    match exampleCall with
    | .ok similar_queries => examplesBlock similar_queries
    | .error _ => ""
  chain { examples := examples, max_rows := max_rows,
          question := question, schema := schema_snippet }

/-- Embeds `streamlit_app.py` lines 318–330: on a raised generation error
the turn fails with `SQL 생성 실패`; otherwise `sql` and `reasoning_short`
are read off the parsed object with `dict.get` defaults `""`, and `sql` is
stripped. -/
def generationStage (out : Except String JsonObj) :
    Except String (String × String) :=
  match out with
  | .error e => .error ("SQL 생성 실패: " ++ e)
  | .ok llm_out => .ok (pyStrip (jsonGet llm_out "sql" ""), jsonGet llm_out "reasoning_short" "")

/-! ## Claim theorems: retrieval failure handling and generation contract -/

/-- C3 (the code, evaluated at the failing input): when the schema search
raises, `get_schema_snippet` returns `None` — not the empty list — and the
`if SCHEMA_SNIPPET is not None` gate then stops the turn before SQL
generation, silently. The claim (and the spec) say an empty sequence is
returned and the turn proceeds to generation; the except block that only
prints, the declared return type `list[dict | str]`, and the sister
function `search_similar_queries_simple` (which does `return []`) show the
missing `return []` is a slip in the code. -/
theorem C3_schema_retriever_returns_none_on_error :
    get_schema_snippet (.error "connection error") 5 = none ∧
    get_schema_snippet (.error "connection error") 5 ≠ some [] ∧
    reachesSqlGeneration (.error "connection error") 5 = false :=
  ⟨rfl, by decide, rfl⟩

/-- C4 counterexample: the claim "a JSON response lacking either required
field is a hard failure of the generation call" fails at a chain response
`{"sql": "SELECT 1"}` with no `reasoning_short`: `nl2sql` returns the
object unchanged (no field validation), and the caller's turn proceeds
with `reasoning` silently defaulted to `""` instead of failing. -/
theorem C4_missing_field_not_a_failure_counterexample :
    nl2sql (.ok []) (fun _ => .ok [("sql", "SELECT 1")]) "q" [] 200 =
      .ok [("sql", "SELECT 1")] ∧
    generationStage
        (nl2sql (.ok []) (fun _ => .ok [("sql", "SELECT 1")]) "q" [] 200) =
      .ok ("SELECT 1", "") := by
  constructor
  · rfl
  · rfl

/-- C4 (amended): a model response that is not parseable as JSON (or a
failed model call) is a hard failure of the single generation call — the
error propagates out of `nl2sql` and the caller surfaces a failed turn,
with no retry. But a parseable response missing `sql` or `reasoning_short`
is not a generation failure: `JsonOutputParser` does not validate fields,
`nl2sql` returns the parsed object as-is, and the caller defaults each
missing field to `""` via `dict.get` (an empty `sql` is only rejected later
by the validation stage). -/
theorem C4_generation_contract (exampleCall : Except String (List QAExample))
    (chain : PromptInput → Except String JsonObj)
    (question : String) (schema : List String) (max_rows : Int) :
    ((∀ p, (chain p).isOk = false) →
      (nl2sql exampleCall chain question schema max_rows).isOk = false) ∧
    (∀ o, (∀ p, chain p = .ok o) →
      nl2sql exampleCall chain question schema max_rows = .ok o ∧
      generationStage (nl2sql exampleCall chain question schema max_rows) =
        .ok (pyStrip (jsonGet o "sql" ""), jsonGet o "reasoning_short" "")) := by
  constructor
  · intro h
    unfold nl2sql
    exact h _
  · intro o h
    unfold nl2sql
    rw [h _]
    exact ⟨rfl, rfl⟩

/-- C7: example-retrieval failures never block SQL generation. On any
search error `search_similar_queries_simple` itself returns the empty
list; and even when the example sub-call inside `nl2sql` raises, the
`try`/`except` there falls back to an empty `examples` string and the model
chain is still invoked — in both failure shapes `nl2sql` is exactly the
chain applied to the prompt with empty examples. -/
theorem C7_example_retrieval_failure_degrades_only (e₁ e₂ : String)
    (chain : PromptInput → Except String JsonObj)
    (question : String) (schema : List String) (max_rows : Int) :
    search_similar_queries_simple (.error e₁) = [] ∧
    nl2sql (.error e₂) chain question schema max_rows =
      chain { examples := "", max_rows := max_rows,
              question := question, schema := schema } ∧
    nl2sql (.ok (search_similar_queries_simple (.error e₁))) chain question
        schema max_rows =
      chain { examples := "", max_rows := max_rows,
              question := question, schema := schema } :=
  ⟨rfl, rfl, rfl⟩

/-! ## `src/streamlit_app.py`: execution result handling and turn append -/

/-- One rendered result row: column name to displayed value
(`df.to_dict("records")`). -/
abbrev RowRecord := List (String × String)

/-- `pandas.DataFrame(rows, columns=cols).to_dict("records")`: each row
paired up with the column names. -/
def toRecords (cols : List String) (rows : List (List String)) : List RowRecord :=
  rows.map (fun r => cols.zip r)

/-- Embeds `streamlit_app.execute_sql_query` with `show_ui=False`: the
underlying executor call is an oracle that either returns `(cols, rows)`
or raises. Success yields `(records, len(rows), None)` (an empty fetch
yields `([], 0, None)`); any raised error is caught and yields
`(None, 0, str(e))`. -/
def execute_sql_query
    (run : Except String (List String × List (List String))) :
    Option (List RowRecord) × Nat × Option String :=
  match run with
  | .ok res => (some (toRecords res.1 res.2), res.2.length, none)
  | .error e => (none, 0, some e)

/-- A conversation turn as the session list stores it: `none` stands for a
key absent from the Python dict. -/
structure Turn where
  role : String
  content : String
  sql : Option String := none
  reasoning : Option String := none
  result : Option (List RowRecord) := none
  row_count : Option Nat := none
  exec_ms : Option Nat := none
  limit : Option Int := none
  schema_tables : Option (List String) := none
  error : Option String := none

/-- Embeds `streamlit_app.py` lines 364–391: the assistant turn appended
after query execution. With an error message the turn carries `error` and
no `result` key; otherwise it carries `result` (the records, or `[]` when
falsy) plus the metrics, and no `error` key. -/
def executionTurn (sql reasoning : String) (exec_ms : Nat) (max_rows : Int)
    (schema_tables : List String)
    (outcome : Option (List RowRecord) × Nat × Option String) : Turn :=
  match outcome.2.2 with
  | some e =>
    { role := "assistant",
      content := "쿼리 실행에 실패했습니다: " ++ e,
      sql := some sql, reasoning := some reasoning, error := some e }
  | none =>
    { role := "assistant",
      content := "✅ 쿼리를 성공적으로 실행했습니다.",
      sql := some sql, reasoning := some reasoning,
      result := some (outcome.1.getD []),
      row_count := some outcome.2.1, exec_ms := some exec_ms,
      limit := some max_rows, schema_tables := some schema_tables }

/-- C9: every assistant turn appended after query execution carries either
an `error` field and no `result` field, or a `result` field (possibly the
empty list) and no `error` field — never both. -/
theorem C9_turn_has_error_xor_result
    (run : Except String (List String × List (List String)))
    (sql reasoning : String) (exec_ms : Nat) (max_rows : Int)
    (schema_tables : List String) :
    ((executionTurn sql reasoning exec_ms max_rows schema_tables
        (execute_sql_query run)).error.isSome ∧
     (executionTurn sql reasoning exec_ms max_rows schema_tables
        (execute_sql_query run)).result = none) ∨
    ((executionTurn sql reasoning exec_ms max_rows schema_tables
        (execute_sql_query run)).result.isSome ∧
     (executionTurn sql reasoning exec_ms max_rows schema_tables
        (execute_sql_query run)).error = none) := by
  cases run with
  | ok res =>
    right
    exact ⟨rfl, rfl⟩
  | error e =>
    left
    exact ⟨rfl, rfl⟩

/-! ## `src/db.py`: the schema cache builder

The four catalog queries return row sets; `build_schema_cache` merges them
in memory into a `defaultdict` keyed by the string `f"{schema}.{table}"`,
then purges the blob container and uploads one JSON document per key.
The `defaultdict` is embedded as an insertion-ordered association list
(`SchemaMap`), and each of the four Python `for` loops as a left fold of
`updateKey` (read-or-default, modify, write back). -/

/-- A row of the table-listing query (`db.get_tables`). -/
structure TableRow where
  table_schema : String
  table_name : String
deriving DecidableEq

/-- A row of the column query (`db.get_columns`). -/
structure ColumnRow where
  table_schema : String
  table_name : String
  column_name : String
  data_type : String
  is_nullable : String
  column_default : Option String
deriving DecidableEq

/-- A row of the primary-key query (`db.get_pk`). -/
structure PkRow where
  table_schema : String
  table_name : String
  column_name : String
deriving DecidableEq

/-- A row of the foreign-key query (`db.get_fk`). -/
structure FkRow where
  table_schema : String
  table_name : String
  column_name : String
  foreign_schema : String
  foreign_table : String
  foreign_column : String
deriving DecidableEq

/-- One column entry of a schema descriptor. -/
structure ColumnDesc where
  name : String
  type : String
  nullable : Bool
  default : Option String
deriving DecidableEq

/-- One foreign-key entry of a schema descriptor. The source dict keys
`from` and `to` are reserved words in Lean and are named `from_column` and
`to_column` here. -/
structure FkDesc where
  from_column : String
  to_column : String
deriving DecidableEq

/-- A schema descriptor, one per `(schema, table)` pair. -/
structure SchemaDescriptor where
  schema : String
  table : String
  columns : List ColumnDesc
  primary_key : List String
  foreign_keys : List FkDesc
deriving DecidableEq

/-- The `defaultdict` default value. -/
def emptyDescriptor : SchemaDescriptor :=
  { schema := "", table := "", columns := [], primary_key := [], foreign_keys := [] }

/-- The `defaultdict`, embedded as an insertion-ordered association list. -/
abbrev SchemaMap := List (String × SchemaDescriptor)

/-- Association-list lookup. -/
def lookupKey (m : SchemaMap) (k : String) : Option SchemaDescriptor :=
  match m with
  | [] => none
  | (k', d) :: rest => if k' = k then some d else lookupKey rest k

/-- `defaultdict` access-and-mutate: `schema_map[key] = f(schema_map[key])`
where a missing key is first materialized as `emptyDescriptor` (new keys
go to the end, preserving Python dict insertion order). -/
def updateKey (m : SchemaMap) (k : String) (f : SchemaDescriptor → SchemaDescriptor) :
    SchemaMap :=
  match m with
  | [] => [(k, f emptyDescriptor)]
  | (k', d) :: rest =>
    if k' = k then (k', f d) :: rest else (k', d) :: updateKey rest k f

/-- One of the four merge loops: fold the rows into the map, each row
updating the descriptor at its key. -/
def foldUpd {ρ : Type} (m : SchemaMap) (rows : List ρ) (kf : ρ → String)
    (uf : ρ → SchemaDescriptor → SchemaDescriptor) : SchemaMap :=
  rows.foldl (fun m r => updateKey m (kf r) (uf r)) m

/-- The merge key `f"{schema}.{table}"`. -/
def tkey (s t : String) : String := s ++ "." ++ t

/-- Key of a table row. -/
def tableKey (t : TableRow) : String := tkey t.table_schema t.table_name

/-- Key of a column row. -/
def colKey (c : ColumnRow) : String := tkey c.table_schema c.table_name

/-- Key of a primary-key row. -/
def pkKey (r : PkRow) : String := tkey r.table_schema r.table_name

/-- Key of a foreign-key row. -/
def fkKey (r : FkRow) : String := tkey r.table_schema r.table_name

/-- The tables loop body: set `schema` and `table`. -/
def tableUpd (t : TableRow) (d : SchemaDescriptor) : SchemaDescriptor :=
  { d with schema := t.table_schema, table := t.table_name }

/-- The column entry built from one column row. -/
def colDescOf (c : ColumnRow) : ColumnDesc :=
  { name := c.column_name, type := c.data_type,
    nullable := c.is_nullable = "YES", default := c.column_default }

/-- The columns loop body: append one column entry. -/
def colUpd (c : ColumnRow) (d : SchemaDescriptor) : SchemaDescriptor :=
  { d with columns := d.columns ++ [colDescOf c] }

/-- The primary-key loop body: append the column name. -/
def pkUpd (r : PkRow) (d : SchemaDescriptor) : SchemaDescriptor :=
  { d with primary_key := d.primary_key ++ [r.column_name] }

/-- The foreign-key entry built from one foreign-key row. -/
def fkDescOf (r : FkRow) : FkDesc :=
  { from_column := r.column_name,
    to_column := r.foreign_schema ++ "." ++ r.foreign_table ++ "." ++ r.foreign_column }

/-- The foreign-key loop body: append one foreign-key entry. -/
def fkUpd (r : FkRow) (d : SchemaDescriptor) : SchemaDescriptor :=
  { d with foreign_keys := d.foreign_keys ++ [fkDescOf r] }

/-- The map after the first loop of `build_schema_cache` (`for t in
tables`). -/
def mapAfterTables (tables : List TableRow) : SchemaMap :=
  foldUpd [] tables tableKey tableUpd

/-- The map after the second loop (`for c in columns`). -/
def mapAfterColumns (tables : List TableRow) (columns : List ColumnRow) :
    SchemaMap :=
  foldUpd (mapAfterTables tables) columns colKey colUpd

/-- The map after the third loop (`for r in pk`). -/
def mapAfterPk (tables : List TableRow) (columns : List ColumnRow)
    (pk : List PkRow) : SchemaMap :=
  foldUpd (mapAfterColumns tables columns) pk pkKey pkUpd

/-- The in-memory merge of `db.build_schema_cache`: the four loops run in
source order — tables, then columns, then primary keys, then foreign
keys — over the shared `defaultdict`. -/
def schema_map (tables : List TableRow) (columns : List ColumnRow)
    (pk : List PkRow) (fk : List FkRow) : SchemaMap :=
  foldUpd (mapAfterPk tables columns pk) fk fkKey fkUpd

/-- A write issued against the document store, in order. -/
inductive StoreEvent where
  | purge
  | upload (key : String)
deriving DecidableEq

/-- Whether a store event is a descriptor upload. -/
def StoreEvent.isUploadEvent : StoreEvent → Bool
  | .purge => false
  | .upload _ => true

/-- Embeds `db.build_schema_cache`. Each of the four catalog reads is an
oracle that either yields its rows or raises; a raised read propagates out
(Python exception) before `delete_all_blobs_in_container` or any
`upload_json_to_blob` call runs, so the issued store events are the pair's
first component only on the all-reads-succeed path: the purge, then one
upload per key of the merged map, in map order. -/
def build_schema_cache (tablesRead : Except String (List TableRow))
    (columnsRead : Except String (List ColumnRow))
    (pkRead : Except String (List PkRow))
    (fkRead : Except String (List FkRow)) :
    List StoreEvent × Except String (List SchemaDescriptor) :=
  match tablesRead with
  | .error e => ([], .error e)
  | .ok tables =>
    match columnsRead with
    | .error e => ([], .error e)
    | .ok columns =>
      match pkRead with
      | .error e => ([], .error e)
      | .ok pk =>
        match fkRead with
        | .error e => ([], .error e)
        | .ok fk =>
          let m := schema_map tables columns pk fk
          (StoreEvent.purge :: m.map (fun kd => StoreEvent.upload kd.1),
            .ok (m.map (fun kd => kd.2)))

/-! ## Association-map lemmas for the schema merge -/

/-- Keys of the map, in insertion order. -/
def keysOf (m : SchemaMap) : List String := m.map (fun kd => kd.1)

lemma length_keysOf (m : SchemaMap) : (keysOf m).length = m.length :=
  List.length_map _ _

lemma lookupKey_updateKey (m : SchemaMap) (k j : String)
    (f : SchemaDescriptor → SchemaDescriptor) :
    lookupKey (updateKey m k f) j =
      if j = k then some (f ((lookupKey m k).getD emptyDescriptor))
      else lookupKey m j := by
  induction m with
  | nil =>
    by_cases h : j = k
    · subst h
      simp [updateKey, lookupKey]
    · have h' : ¬ (k = j) := fun hh => h hh.symm
      simp [updateKey, lookupKey, h, h']
  | cons hd tl ih =>
    obtain ⟨a, d⟩ := hd
    by_cases hak : a = k
    · subst hak
      by_cases hj : j = a
      · subst hj
        simp [updateKey, lookupKey]
      · have hj' : ¬ (a = j) := fun hh => hj hh.symm
        simp [updateKey, lookupKey, hj, hj']
    · by_cases haj : a = j
      · subst haj
        simp [updateKey, lookupKey, hak]
      · simp only [updateKey, if_neg hak, lookupKey, if_neg haj]
        rw [ih]

lemma keysOf_updateKey (m : SchemaMap) (k : String)
    (f : SchemaDescriptor → SchemaDescriptor) :
    keysOf (updateKey m k f) =
      if k ∈ keysOf m then keysOf m else keysOf m ++ [k] := by
  induction m with
  | nil => simp [updateKey, keysOf]
  | cons hd tl ih =>
    obtain ⟨a, d⟩ := hd
    by_cases hak : a = k
    · subst hak
      simp [updateKey, keysOf]
    · have hka : ¬ (k = a) := fun hh => hak hh.symm
      have hcons : keysOf (updateKey ((a, d) :: tl) k f) =
          a :: keysOf (updateKey tl k f) := by
        simp [updateKey, keysOf, hak]
      by_cases hmem : k ∈ keysOf tl
      · have hmem' : k ∈ keysOf ((a, d) :: tl) := by
          simp only [keysOf, List.map_cons, List.mem_cons]
          exact Or.inr hmem
        rw [hcons, ih, if_pos hmem, if_pos hmem']
        rfl
      · have hmem' : k ∉ keysOf ((a, d) :: tl) := by
          simp only [keysOf, List.map_cons, List.mem_cons]
          rintro (h1 | h2)
          · exact hka h1
          · exact hmem h2
        rw [hcons, ih, if_neg hmem, if_neg hmem']
        rfl

lemma lookupKey_isSome_iff (m : SchemaMap) (k : String) :
    (lookupKey m k).isSome = true ↔ k ∈ keysOf m := by
  induction m with
  | nil => simp [lookupKey, keysOf]
  | cons hd tl ih =>
    obtain ⟨a, d⟩ := hd
    by_cases hak : a = k
    · subst hak
      simp [lookupKey, keysOf]
    · have hka : ¬ (k = a) := fun hh => hak hh.symm
      simp [lookupKey, keysOf, hak, hka, ih]

lemma foldUpd_cons {ρ : Type} (m : SchemaMap) (r : ρ) (rs : List ρ)
    (kf : ρ → String) (uf : ρ → SchemaDescriptor → SchemaDescriptor) :
    foldUpd m (r :: rs) kf uf = foldUpd (updateKey m (kf r) (uf r)) rs kf uf :=
  rfl

lemma keysOf_foldUpd_of_mem {ρ : Type} (rows : List ρ) (kf : ρ → String)
    (uf : ρ → SchemaDescriptor → SchemaDescriptor) (m : SchemaMap)
    (h : ∀ r ∈ rows, kf r ∈ keysOf m) :
    keysOf (foldUpd m rows kf uf) = keysOf m := by
  induction rows generalizing m with
  | nil => rfl
  | cons r rs ih =>
    have hk : kf r ∈ keysOf m := h r (List.mem_cons_self _ _)
    have hkeys : keysOf (updateKey m (kf r) (uf r)) = keysOf m := by
      rw [keysOf_updateKey, if_pos hk]
    rw [foldUpd_cons, ih _ ?_, hkeys]
    intro r' hr'
    rw [hkeys]
    exact h r' (List.mem_cons_of_mem _ hr')

lemma keysOf_foldUpd_fresh {ρ : Type} (rows : List ρ) (kf : ρ → String)
    (uf : ρ → SchemaDescriptor → SchemaDescriptor) (m : SchemaMap)
    (hnd : (rows.map kf).Nodup) (hdisj : ∀ r ∈ rows, kf r ∉ keysOf m) :
    keysOf (foldUpd m rows kf uf) = keysOf m ++ rows.map kf := by
  induction rows generalizing m with
  | nil => simp [foldUpd]
  | cons r rs ih =>
    obtain ⟨hhead, htail⟩ := List.nodup_cons.mp hnd
    have hnot : kf r ∉ keysOf m := hdisj r (List.mem_cons_self _ _)
    have hkeys : keysOf (updateKey m (kf r) (uf r)) = keysOf m ++ [kf r] := by
      rw [keysOf_updateKey, if_neg hnot]
    rw [foldUpd_cons, ih _ htail ?_, hkeys]
    · simp
    · intro r' hr'
      rw [hkeys]
      intro hmem
      rcases List.mem_append.mp hmem with h1 | h2
      · exact hdisj r' (List.mem_cons_of_mem _ hr') h1
      · have : kf r' = kf r := List.mem_singleton.mp h2
        exact hhead (this ▸ List.mem_map_of_mem kf hr')

lemma join_of_nils {ρ β : Type} (xs : List ρ) :
    (xs.map (fun _ => ([] : List β))).join = [] := by
  induction xs with
  | nil => rfl
  | cons x xs ih => simpa using ih

lemma join_of_singletons {ρ β : Type} (h : ρ → β) (xs : List ρ) :
    (xs.map (fun x => [h x])).join = xs.map h := by
  induction xs with
  | nil => rfl
  | cons x xs ih => simpa using ih

lemma lookupKey_foldUpd_proj {ρ β : Type} (g : SchemaDescriptor → List β)
    (w : ρ → List β) (kf : ρ → String)
    (uf : ρ → SchemaDescriptor → SchemaDescriptor)
    (hcomp : ∀ r d, g (uf r d) = g d ++ w r)
    (rows : List ρ) (m : SchemaMap)
    (hmem : ∀ r ∈ rows, kf r ∈ keysOf m) (k : String) :
    (lookupKey (foldUpd m rows kf uf) k).map g =
      (lookupKey m k).map
        (fun d => g d ++ ((rows.filter (fun r => kf r = k)).map w).join) := by
  induction rows generalizing m with
  | nil =>
    cases h : lookupKey m k <;> simp [foldUpd, h]
  | cons r rs ih =>
    have hkr : kf r ∈ keysOf m := hmem r (List.mem_cons_self _ _)
    have hkeys : keysOf (updateKey m (kf r) (uf r)) = keysOf m := by
      rw [keysOf_updateKey, if_pos hkr]
    rw [foldUpd_cons, ih _ ?_]
    swap
    · intro r' hr'
      rw [hkeys]
      exact hmem r' (List.mem_cons_of_mem _ hr')
    by_cases hk : kf r = k
    · subst hk
      obtain ⟨d0, hd0⟩ := Option.isSome_iff_exists.mp
        ((lookupKey_isSome_iff m (kf r)).mpr hkr)
      rw [lookupKey_updateKey, if_pos rfl, hd0]
      simp only [Option.getD_some, Option.map_some', hcomp, List.filter_cons,
        decide_True, List.map_cons, List.join_cons, List.append_assoc]
      simp
    · have hk' : ¬ (k = kf r) := fun hh => hk hh.symm
      rw [lookupKey_updateKey, if_neg hk']
      cases h : lookupKey m k <;>
        simp [h, List.filter_cons, hk]

lemma lookupKey_foldUpd_invariant {ρ : Type} (P : SchemaDescriptor → Prop)
    (kf : ρ → String) (uf : ρ → SchemaDescriptor → SchemaDescriptor)
    (hP0 : P emptyDescriptor) (hPuf : ∀ r d, P d → P (uf r d))
    (rows : List ρ) (m : SchemaMap)
    (hm : ∀ k d, lookupKey m k = some d → P d) :
    ∀ k d, lookupKey (foldUpd m rows kf uf) k = some d → P d := by
  induction rows generalizing m with
  | nil => exact hm
  | cons r rs ih =>
    rw [foldUpd_cons]
    refine ih _ ?_
    intro k d hkd
    rw [lookupKey_updateKey] at hkd
    by_cases hk : k = kf r
    · rw [if_pos hk] at hkd
      cases hprev : lookupKey m (kf r) with
      | none =>
        rw [hprev] at hkd
        simp only [Option.getD_none] at hkd
        exact (Option.some_inj.mp hkd) ▸ hPuf r _ hP0
      | some d0 =>
        rw [hprev] at hkd
        simp only [Option.getD_some] at hkd
        exact (Option.some_inj.mp hkd) ▸ hPuf r _ (hm _ _ hprev)
    · rw [if_neg hk] at hkd
      exact hm _ _ hkd

/-! ## Claim theorems: the schema rebuild -/

/-- C6: when any of the four catalog reads fails, the rebuild aborts: the
result is the propagated error and no store write — neither the container
purge nor any descriptor upload — is issued. All four reads complete before
any write begins. -/
theorem C6_failed_read_aborts_before_any_write
    (tablesRead : Except String (List TableRow))
    (columnsRead : Except String (List ColumnRow))
    (pkRead : Except String (List PkRow))
    (fkRead : Except String (List FkRow))
    (h : tablesRead.isOk = false ∨ columnsRead.isOk = false ∨
      pkRead.isOk = false ∨ fkRead.isOk = false) :
    (build_schema_cache tablesRead columnsRead pkRead fkRead).1 = [] ∧
    (build_schema_cache tablesRead columnsRead pkRead fkRead).2.isOk = false := by
  cases tablesRead <;> cases columnsRead <;> cases pkRead <;> cases fkRead <;>
    first
      | exact ⟨rfl, rfl⟩
      | simp [Except.isOk, Except.toBool] at h

/-- C6 witness: a failing table-listing read aborts the rebuild with no
store event. -/
theorem C6_failed_read_witness :
    ((Except.error "connection refused" : Except String (List TableRow)).isOk
        = false ∨
      (Except.ok ([] : List ColumnRow) : Except String (List ColumnRow)).isOk
        = false ∨
      (Except.ok ([] : List PkRow) : Except String (List PkRow)).isOk
        = false ∨
      (Except.ok ([] : List FkRow) : Except String (List FkRow)).isOk
        = false) ∧
    ((build_schema_cache (.error "connection refused") (.ok []) (.ok [])
        (.ok [])).1 = [] ∧
      (build_schema_cache (.error "connection refused") (.ok []) (.ok [])
        (.ok [])).2.isOk = false) :=
  ⟨Or.inl rfl,
    C6_failed_read_aborts_before_any_write _ _ _ _ (Or.inl rfl)⟩

/-- C5 counterexample: the claim fails as stated, because the merge keys
tables by the joined string `f"{schema}.{table}"`, which aliases distinct
pairs whose names contain a dot (legal quoted identifiers in PostgreSQL):
for the table listing `[("a.b", "c"), ("a", "b.c")]` both rows share the
key `"a.b.c"`, so the rebuild issues one upload while the listing has two
distinct `(schema, table)` pairs. -/
theorem C5_dot_aliasing_counterexample :
    ¬ (((build_schema_cache
            (.ok ([⟨"a.b", "c"⟩, ⟨"a", "b.c"⟩] : List TableRow))
            (.ok ([] : List ColumnRow)) (.ok ([] : List PkRow))
            (.ok ([] : List FkRow))).1.filter
          StoreEvent.isUploadEvent).length =
      (([⟨"a.b", "c"⟩, ⟨"a", "b.c"⟩] : List TableRow).map
        (fun t => (t.table_schema, t.table_name))).dedup.length) := by
  decide

/-- C5 (amended): on a rebuild whose catalog reads are consistent — the
table-listing rows have pairwise distinct `schema.table` join keys (no
dot-aliasing between names), and every column/primary-key/foreign-key row
belongs to a listed table — the number of descriptor uploads issued by
`build_schema_cache` equals the number of distinct `(schema, table)` pairs
returned by the table-listing query, and each descriptor's `columns` list
is exactly the column rows of its table, so its length equals the number
of column rows for that table. -/
theorem C5_upload_count_and_column_counts
    (tables : List TableRow) (columns : List ColumnRow)
    (pk : List PkRow) (fk : List FkRow)
    (hnodup : (tables.map tableKey).Nodup)
    (hc : ∀ c ∈ columns, colKey c ∈ tables.map tableKey)
    (hp : ∀ r ∈ pk, pkKey r ∈ tables.map tableKey)
    (hf : ∀ r ∈ fk, fkKey r ∈ tables.map tableKey) :
    (((build_schema_cache (.ok tables) (.ok columns) (.ok pk)
          (.ok fk)).1.filter StoreEvent.isUploadEvent).length =
      (tables.map (fun t => (t.table_schema, t.table_name))).dedup.length) ∧
    (∀ k d, lookupKey (schema_map tables columns pk fk) k = some d →
      d.columns.length =
        (columns.filter (fun c => colKey c = k)).length) := by
  have hkeys1 : keysOf (mapAfterTables tables) = tables.map tableKey := by
    have h := keysOf_foldUpd_fresh tables tableKey tableUpd [] hnodup
      (by intro r hr; simp [keysOf])
    simpa [mapAfterTables, keysOf] using h
  have hmemc : ∀ c ∈ columns, colKey c ∈ keysOf (mapAfterTables tables) := by
    intro c hcmem
    rw [hkeys1]
    exact hc c hcmem
  have hkeys2 : keysOf (mapAfterColumns tables columns) =
      keysOf (mapAfterTables tables) :=
    keysOf_foldUpd_of_mem columns colKey colUpd _ hmemc
  have hmemp : ∀ r ∈ pk, pkKey r ∈ keysOf (mapAfterColumns tables columns) := by
    intro r hr
    rw [hkeys2, hkeys1]
    exact hp r hr
  have hkeys3 : keysOf (mapAfterPk tables columns pk) =
      keysOf (mapAfterColumns tables columns) :=
    keysOf_foldUpd_of_mem pk pkKey pkUpd _ hmemp
  have hmemf : ∀ r ∈ fk, fkKey r ∈ keysOf (mapAfterPk tables columns pk) := by
    intro r hr
    rw [hkeys3, hkeys2, hkeys1]
    exact hf r hr
  have hkeys4 : keysOf (schema_map tables columns pk fk) =
      keysOf (mapAfterPk tables columns pk) :=
    keysOf_foldUpd_of_mem fk fkKey fkUpd _ hmemf
  have hlen4 : (schema_map tables columns pk fk).length = tables.length := by
    have h := length_keysOf (schema_map tables columns pk fk)
    rw [hkeys4, hkeys3, hkeys2, hkeys1, List.length_map] at h
    exact h.symm
  constructor
  · -- upload count = distinct (schema, table) pairs
    have hpairs : (tables.map (fun t => (t.table_schema, t.table_name))).dedup =
        tables.map (fun t => (t.table_schema, t.table_name)) := by
      rw [List.dedup_eq_self]
      apply List.Nodup.of_map (fun p : String × String => p.1 ++ "." ++ p.2)
      have hmm : (tables.map (fun t => (t.table_schema, t.table_name))).map
          (fun p : String × String => p.1 ++ "." ++ p.2) =
          tables.map tableKey := by
        rw [List.map_map]
        rfl
      rw [hmm]
      exact hnodup
    have hev : (build_schema_cache (.ok tables) (.ok columns) (.ok pk)
        (.ok fk)).1 =
        StoreEvent.purge :: (schema_map tables columns pk fk).map
          (fun kd => StoreEvent.upload kd.1) := rfl
    have hfil : ((schema_map tables columns pk fk).map
        (fun kd => StoreEvent.upload kd.1)).filter StoreEvent.isUploadEvent =
        (schema_map tables columns pk fk).map
          (fun kd => StoreEvent.upload kd.1) := by
      apply List.filter_eq_self.mpr
      intro ev hev'
      obtain ⟨kd, _, hkd⟩ := List.mem_map.mp hev'
      rw [← hkd]
      rfl
    rw [hev, List.filter_cons, hpairs, List.length_map]
    simp only [StoreEvent.isUploadEvent, if_neg, Bool.false_eq_true,
      ite_false, hfil, List.length_map]
    exact hlen4
  · -- per-descriptor column count
    intro k d hkd
    have hM1cols : ∀ k' d', lookupKey (mapAfterTables tables) k' = some d' →
        d'.columns = [] := by
      refine lookupKey_foldUpd_invariant (fun dd => dd.columns = [])
        tableKey tableUpd rfl ?_ tables [] ?_
      · intro r dd hdd
        simpa [tableUpd] using hdd
      · intro k' d' h
        simp [lookupKey] at h
    have e4 : (lookupKey (schema_map tables columns pk fk) k).map
        (fun dd => dd.columns) =
        (lookupKey (mapAfterPk tables columns pk) k).map
          (fun dd => dd.columns ++
            ((fk.filter (fun r => fkKey r = k)).map
              (fun _ => ([] : List ColumnDesc))).join) :=
      lookupKey_foldUpd_proj (fun dd => dd.columns) (fun _ => [])
        fkKey fkUpd (by intro r dd; simp [fkUpd]) fk _ hmemf k
    rw [hkd, join_of_nils] at e4
    obtain ⟨d3, h3, hd3⟩ : ∃ d3, lookupKey (mapAfterPk tables columns pk) k =
        some d3 ∧ d3.columns = d.columns := by
      cases h3 : lookupKey (mapAfterPk tables columns pk) k with
      | none => rw [h3] at e4; cases e4
      | some d3 =>
        rw [h3] at e4
        simp only [Option.map_some', Option.some_inj, List.append_nil] at e4
        exact ⟨d3, rfl, e4.symm⟩
    have e3 : (lookupKey (mapAfterPk tables columns pk) k).map
        (fun dd => dd.columns) =
        (lookupKey (mapAfterColumns tables columns) k).map
          (fun dd => dd.columns ++
            ((pk.filter (fun r => pkKey r = k)).map
              (fun _ => ([] : List ColumnDesc))).join) :=
      lookupKey_foldUpd_proj (fun dd => dd.columns) (fun _ => [])
        pkKey pkUpd (by intro r dd; simp [pkUpd]) pk _ hmemp k
    rw [h3, join_of_nils] at e3
    obtain ⟨d2, h2, hd2⟩ : ∃ d2, lookupKey (mapAfterColumns tables columns) k =
        some d2 ∧ d2.columns = d3.columns := by
      cases h2 : lookupKey (mapAfterColumns tables columns) k with
      | none => rw [h2] at e3; cases e3
      | some d2 =>
        rw [h2] at e3
        simp only [Option.map_some', Option.some_inj, List.append_nil] at e3
        exact ⟨d2, rfl, e3.symm⟩
    have e2 : (lookupKey (mapAfterColumns tables columns) k).map
        (fun dd => dd.columns) =
        (lookupKey (mapAfterTables tables) k).map
          (fun dd => dd.columns ++
            ((columns.filter (fun c => colKey c = k)).map
              (fun c => [colDescOf c])).join) :=
      lookupKey_foldUpd_proj (fun dd => dd.columns) (fun c => [colDescOf c])
        colKey colUpd (by intro c dd; simp [colUpd]) columns _ hmemc k
    rw [h2, join_of_singletons] at e2
    obtain ⟨d1, h1, hd1⟩ : ∃ d1, lookupKey (mapAfterTables tables) k = some d1 ∧
        d1.columns ++ (columns.filter (fun c => colKey c = k)).map colDescOf =
          d2.columns := by
      cases h1 : lookupKey (mapAfterTables tables) k with
      | none => rw [h1] at e2; cases e2
      | some d1 =>
        rw [h1] at e2
        simp only [Option.map_some', Option.some_inj] at e2
        exact ⟨d1, rfl, e2.symm⟩
    have hnil : d1.columns = [] := hM1cols k d1 h1
    have : d.columns = (columns.filter (fun c => colKey c = k)).map colDescOf := by
      rw [← hd3, ← hd2, ← hd1, hnil, List.nil_append]
    rw [this, List.length_map]

/-- The spec's two-table scenario catalog: `public.film(film_id, title)`
and `public.rental(rental_id)`, one primary key each, one foreign key. -/
def sampleTables : List TableRow :=
  [⟨"public", "film"⟩, ⟨"public", "rental"⟩]

/-- Column rows of the two-table scenario. -/
def sampleColumns : List ColumnRow :=
  [⟨"public", "film", "film_id", "integer", "NO", none⟩,
   ⟨"public", "film", "title", "text", "NO", none⟩,
   ⟨"public", "rental", "rental_id", "integer", "NO", none⟩]

/-- Primary-key rows of the two-table scenario. -/
def samplePk : List PkRow :=
  [⟨"public", "film", "film_id"⟩, ⟨"public", "rental", "rental_id"⟩]

/-- Foreign-key rows of the two-table scenario. -/
def sampleFk : List FkRow :=
  [⟨"public", "rental", "film_id", "public", "film", "film_id"⟩]

/-- C5 witness: on the two-table scenario catalog the consistency
hypotheses hold and the rebuild issues exactly one upload per distinct
`(schema, table)` pair, with per-table column counts. -/
theorem C5_upload_count_witness :
    ((sampleTables.map tableKey).Nodup ∧
      (∀ c ∈ sampleColumns, colKey c ∈ sampleTables.map tableKey) ∧
      (∀ r ∈ samplePk, pkKey r ∈ sampleTables.map tableKey) ∧
      (∀ r ∈ sampleFk, fkKey r ∈ sampleTables.map tableKey)) ∧
    ((((build_schema_cache (.ok sampleTables) (.ok sampleColumns)
          (.ok samplePk) (.ok sampleFk)).1.filter
            StoreEvent.isUploadEvent).length =
        (sampleTables.map
          (fun t => (t.table_schema, t.table_name))).dedup.length) ∧
      (∀ k d, lookupKey (schema_map sampleTables sampleColumns samplePk
          sampleFk) k = some d →
        d.columns.length =
          (sampleColumns.filter (fun c => colKey c = k)).length)) :=
  ⟨⟨by decide, by decide, by decide, by decide⟩,
    C5_upload_count_and_column_counts sampleTables sampleColumns samplePk
      sampleFk (by decide) (by decide) (by decide) (by decide)⟩

end MsAiMvp
